import Mathlib

set_option linter.dupNamespace false

/-!
Shallow embedding of the schedule-resolution engine of the `timetable`
repository (source files `api.js` and the main application script).

Modelling conventions:
* Wall-clock times appear in the source as zero-padded `"HH:MM"` strings that
  are compared with `localeCompare` / `<` / `>=`; under the fixed-width
  zero-padded invariant that string order coincides with lexicographic order
  on the (hour, minute) pair, which is how times are represented here (`HM`).
* The static configuration tables (`TIMETABLE_DATA`, `SUBJECT_SCHEDULE`,
  `DAY_ROTATION`, `SPECIAL_DATES`) live in a data file that is plain
  configuration; they are parameters (`Config`) of every operation.
  JavaScript truthiness tests on table lookups (`x || null`, `if (x)`) are
  transcribed explicitly: the empty string and the number 0 are falsy.
* `new Date(dateStr + 'T00:00:00')` validity and `Date.prototype.getDay`
  are modelled by an explicit `YYYY-MM-DD` parser over the proleptic
  Gregorian calendar (`parseDateISO`, `dayOfWeekOf`, 0 = Sunday).
* The `timestamp` envelope field reads the ambient clock and carries no
  schedule information; it is omitted from the embedded responses.
* `getCurrent` reads the ambient clock once; it is modelled as a function of
  an explicit `Instant` (today's date string plus seconds since local
  midnight, at whole-second granularity, matching the second-resolution
  arithmetic `Math.floor((endTime - now) / 1000)`).
-/

namespace Timetable

/-- Wall-clock time of day, the (hour, minute) reading of a zero-padded
`"HH:MM"` string; comparisons in the source are lexicographic string
comparisons, embedded as lexicographic order on the pair. -/
structure HM where
  h : Nat
  m : Nat
deriving DecidableEq, Repr

/-- Lexicographic `<=` on `HM`, the order computed by `current >= start`
/ `current <= end` string comparisons on zero-padded `"HH:MM"`. -/
def hmLe (a b : HM) : Bool :=
  decide (a.h < b.h) || (a.h == b.h && decide (a.m ≤ b.m))

/-- Lexicographic `<` on `HM`, the order computed by `item.start > currentTime`
and by `localeCompare` returning a positive number. -/
def hmLt (a b : HM) : Bool :=
  decide (a.h < b.h) || (a.h == b.h && decide (a.m < b.m))

/-- A start/end pair, as stored in `preSchoolAssembly` and in `periods`
entries of `TIMETABLE_DATA`. The source's `end` field is called `stop`
here because `end` is a Lean keyword. -/
structure TimeRange where
  start : HM
  stop : HM
deriving DecidableEq, Repr

/-- A named break entry of `TIMETABLE_DATA` (`{name, start, end}`). -/
structure Break where
  name : String
  start : HM
  stop : HM
deriving DecidableEq, Repr

/-- One timetable definition of `TIMETABLE_DATA`: optional pre-school
assembly, ordered periods, and named breaks. -/
structure Timetable where
  preSchoolAssembly : Option TimeRange
  periods : List TimeRange
  breaks : List Break
deriving DecidableEq, Repr

/-- One slot of the merged day schedule, as pushed by `buildSchedule` in
`api.js`. `periodNumber` is only present on period slots (absent JS key
= `none`). `duration` is the minute difference and is an `Int` because the
source subtraction is unchecked. -/
structure ScheduleItem where
  type : String
  name : String
  displayName : String
  periodNumber : Option Nat
  start : HM
  stop : HM
  subject : String
  duration : Int
deriving DecidableEq, Repr

/-- JavaScript truthiness of an optional string table entry: absent and
`""` are falsy. -/
def truthyStr : Option String → Bool
  | none => false
  | some s => if s = "" then false else true

/-- JavaScript truthiness of an optional numeric table entry: absent and
`0` are falsy. -/
def truthyNat : Option Nat → Bool
  | none => false
  | some n => if n = 0 then false else true

/-- The source idiom `x || null` on an optional string: a falsy lookup
collapses to `null`. -/
def jsOrNullStr (v : Option String) : Option String :=
  if truthyStr v then v else none

/-- The source idiom `x || null` on an optional number. -/
def jsOrNullNat (v : Option Nat) : Option Nat :=
  if truthyNat v then v else none

/-- The source idiom `x || d` for a string with default: falsy `x` (absent
or empty) yields `d`. -/
def jsOrDefault (v : Option String) (d : String) : String :=
  match v with
  | none => d
  | some s => if s = "" then d else s

/-- The static configuration read by the engine: `TIMETABLE_DATA` keyed by
timetable type, `SUBJECT_SCHEDULE` as day-cycle × period-number lookup,
`DAY_ROTATION` and `SPECIAL_DATES` keyed by `YYYY-MM-DD` date strings. -/
structure Config where
  timetableData : String → Option Timetable
  subjectSchedule : Nat → Nat → Option String
  dayRotation : String → Option Nat
  specialDates : String → Option String

/-- Calendar date with numeric components, the value carried by a valid
`new Date(dateStr + 'T00:00:00')`. -/
structure Ymd where
  year : Nat
  month : Nat
  day : Nat
deriving DecidableEq, Repr

/-- Gregorian leap-year test, as used by JavaScript `Date` range checking. -/
def isLeapYear (y : Nat) : Bool :=
  (y % 4 == 0 && y % 100 != 0) || y % 400 == 0

/-- Number of days of a month in the Gregorian calendar. -/
def daysInMonth (y m : Nat) : Nat :=
  if m == 2 then (if isLeapYear y then 29 else 28)
  else if m == 4 || m == 6 || m == 9 || m == 11 then 30
  else 31

/-- Decimal digit test on a character. -/
def isDigitCh (c : Char) : Bool :=
  decide ('0' ≤ c) && decide (c ≤ '9')

/-- Numeric value of a decimal digit character. -/
def digitVal (c : Char) : Nat :=
  c.toNat - '0'.toNat

/-- Parse of a `YYYY-MM-DD` date string, modelling the validity check
`isNaN(new Date(dateStr + 'T00:00:00').getTime())` in `getByDate`:
exactly ten characters, digits and hyphens in place, and the components
in calendar range; anything else is an invalid date. -/
def parseDateISO (s : String) : Option Ymd :=
  match s.toList with
  | [y1, y2, y3, y4, s1, m1, m2, s2, d1, d2] =>
    if isDigitCh y1 && isDigitCh y2 && isDigitCh y3 && isDigitCh y4 &&
        s1 == '-' && isDigitCh m1 && isDigitCh m2 && s2 == '-' &&
        isDigitCh d1 && isDigitCh d2 then
      let y := ((digitVal y1 * 10 + digitVal y2) * 10 + digitVal y3) * 10 + digitVal y4
      let mo := digitVal m1 * 10 + digitVal m2
      let d := digitVal d1 * 10 + digitVal d2
      if 1 ≤ mo && mo ≤ 12 && 1 ≤ d && d ≤ daysInMonth y mo then
        some ⟨y, mo, d⟩
      else none
    else none
  | _ => none

/-- Month offsets of Sakamoto's weekday algorithm. -/
def dowTable : List Nat := [0, 3, 2, 5, 0, 3, 5, 1, 4, 6, 2, 4]

/-- Day of week of a Gregorian date with 0 = Sunday, modelling
`Date.prototype.getDay` on the parsed date. -/
def dayOfWeekOf (d : Ymd) : Nat :=
  let y := if d.month < 3 then d.year - 1 else d.year
  (y + y / 4 - y / 100 + y / 400 + dowTable.getD (d.month - 1) 0 + d.day) % 7

/-- Localized weekday names, the `names` array of `getDayOfWeekName`. -/
def getDayOfWeekName (day : Nat) : String :=
  ["星期日", "星期一", "星期二", "星期三", "星期四", "星期五", "星期六"].getD day ""

/-- Localized timetable-type names, the `names` map of
`getTimetableTypeName` with its `names[type] || type` fallback. -/
def getTimetableTypeName (type : String) : String :=
  if type = "normal" then "正常時間表"
  else if type = "specialA" then "特殊時間表A - 學期初"
  else if type = "specialB" then "特殊時間表B"
  else if type = "specialC" then "特殊時間表C - 長集會"
  else if type = "specialD" then "特殊時間表D - 社際聚會"
  else if type = "specialE" then "特殊時間表E - 資訊日準備"
  else if type = "none" then "非上課日"
  else type

/-- Minute difference `(endH*60+endM) - (startH*60+startM)` computed by
`calculateDuration`. -/
def calculateDuration (start stop : HM) : Int :=
  ((stop.h : Int) * 60 + (stop.m : Int)) - ((start.h : Int) * 60 + (start.m : Int))

/-- Subject lookup `this.subjectSchedule[dayCycle]?.[periodNumber] || '課程'`:
a missing day cycle, a missing entry, or a falsy (empty) entry all resolve
to the placeholder label. -/
def subjectFor (ss : Nat → Nat → Option String) (dayCycle : Option Nat) (p : Nat) : String :=
  match dayCycle with
  | none => "課程"
  | some c =>
    match ss c p with
    | none => "課程"
    | some s => if s = "" then "課程" else s

/-- Assembly slot group pushed first by `buildSchedule` when
`timetable.preSchoolAssembly` is present. -/
def assemblyItems (tt : Timetable) : List ScheduleItem :=
  match tt.preSchoolAssembly with
  | none => []
  | some a =>
    [{ type := "assembly", name := "朝會", displayName := "朝會", periodNumber := none,
       start := a.start, stop := a.stop, subject := "Pre-School Assembly",
       duration := calculateDuration a.start a.stop }]

/-- Period slot group pushed second by `buildSchedule`: one slot per period,
numbered `index + 1` in definition order, subject resolved per day cycle. -/
def periodItems (ss : Nat → Nat → Option String) (tt : Timetable)
    (dayCycle : Option Nat) : List ScheduleItem :=
  tt.periods.enum.map fun ip =>
    { type := "period", name := "第" ++ toString (ip.1 + 1) ++ "節",
      displayName := "P" ++ toString (ip.1 + 1), periodNumber := some (ip.1 + 1),
      start := ip.2.start, stop := ip.2.stop,
      subject := subjectFor ss dayCycle (ip.1 + 1),
      duration := calculateDuration ip.2.start ip.2.stop }

/-- Break slot group pushed last by `buildSchedule`: the break's own name is
display name and subject. -/
def breakItems (tt : Timetable) : List ScheduleItem :=
  tt.breaks.map fun b =>
    { type := "break", name := b.name, displayName := b.name, periodNumber := none,
      start := b.start, stop := b.stop, subject := b.name,
      duration := calculateDuration b.start b.stop }

/-- Stable insertion into a list ordered by slot start: the inserted element
is placed before the first element whose start is not strictly smaller, so
an element coming later in the input never jumps before an equal-start
element coming earlier. -/
def insertByStart (x : ScheduleItem) : List ScheduleItem → List ScheduleItem
  | [] => [x]
  | y :: ys => if hmLt y.start x.start then y :: insertByStart x ys else x :: y :: ys

/-- Stable sort by slot start time, the embedding of
`schedule.sort((a, b) => a.start.localeCompare(b.start))`: JavaScript
`Array.prototype.sort` is a stable ascending sort, whose output is uniquely
determined, and insertion sort with `insertByStart` computes it. -/
def sortByStart : List ScheduleItem → List ScheduleItem
  | [] => []
  | x :: xs => insertByStart x (sortByStart xs)

/-- The `buildSchedule` helper of `api.js`: push the assembly slot (if any),
then one slot per period, then one slot per break, and stable-sort the
result by start time. -/
def buildSchedule (ss : Nat → Nat → Option String) (tt : Timetable)
    (dayCycle : Option Nat) : List ScheduleItem :=
  sortByStart (assemblyItems tt ++ periodItems ss tt dayCycle ++ breakItems tt)

/-- The `data` object assembled by `getByDate` for a valid date. Fields that
the source only sets on one branch (`periods`, `breaks`,
`preSchoolAssembly`, `message`) are `Option`s, `none` meaning the key is
absent from the response. -/
structure DayData where
  date : String
  dayOfWeek : String
  dayOfWeekNumber : Nat
  dayCycle : Option Nat
  timetableType : String
  timetableTypeName : String
  isSchoolDay : Bool
  isWeekend : Bool
  schedule : List ScheduleItem
  periods : Option Nat
  breaks : Option Nat
  preSchoolAssembly : Option TimeRange
  message : Option String
deriving DecidableEq, Repr

/-- The response envelope of the API: `success:false` with an error message,
or `success:true` with a day record. The impure `timestamp` field is
omitted. -/
inductive Response where
  | error (message : String)
  | success (data : DayData)
deriving DecidableEq, Repr

/-- Timetable type carried by a response, when it is a success. -/
def Response.timetableTypeOf : Response → Option String
  | .error _ => none
  | .success d => some d.timetableType

/-- Variant resolution of `getByDate` (`api.js` lines 41-48): special-date
override first, then weekend or missing day-cycle to `none`, then the
Friday rule, else `normal`. -/
def resolveTimetableType (cfg : Config) (dateStr : String) (dayOfWeek : Nat) : String :=
  match jsOrNullStr (cfg.specialDates dateStr) with
  | some t => "special" ++ t
  | none =>
    if (dayOfWeek == 0 || dayOfWeek == 6) || (jsOrNullNat (cfg.dayRotation dateStr)).isNone then
      "none"
    else if dayOfWeek == 5 then "specialB"
    else "normal"

/-- Day record built by `getByDate` for a date that parsed successfully. The
base record mirrors `response.data`; the branch on
`isSchoolDay && timetable` adds either the schedule with period/break
counts or the empty schedule with a localized message. -/
def getByDateValid (cfg : Config) (dateStr : String) (date : Ymd) : DayData :=
  let dayOfWeek := dayOfWeekOf date
  let isWeekend := dayOfWeek == 0 || dayOfWeek == 6
  let dayCycle := jsOrNullNat (cfg.dayRotation dateStr)
  let timetableType := resolveTimetableType cfg dateStr dayOfWeek
  let isSchoolDay := timetableType != "none"
  let base : DayData :=
    { date := dateStr, dayOfWeek := getDayOfWeekName dayOfWeek,
      dayOfWeekNumber := dayOfWeek, dayCycle := dayCycle,
      timetableType := timetableType,
      timetableTypeName := getTimetableTypeName timetableType,
      isSchoolDay := isSchoolDay, isWeekend := isWeekend,
      schedule := [], periods := none, breaks := none,
      preSchoolAssembly := none, message := none }
  match cfg.timetableData timetableType, isSchoolDay with
  | some tt, true =>
    { base with
      schedule := buildSchedule cfg.subjectSchedule tt dayCycle,
      periods := some tt.periods.length, breaks := some tt.breaks.length,
      preSchoolAssembly := tt.preSchoolAssembly }
  | _, _ =>
    { base with message := some (if isWeekend then "週末休息" else "非上課日") }

/-- The `getByDate` operation of `api.js`: an unparseable date string yields
the error envelope before any other computation; a valid date yields the
assembled day record. -/
def getByDate (cfg : Config) (dateStr : String) : Response :=
  match parseDateISO dateStr with
  | none => .error "Invalid date format. Use YYYY-MM-DD"
  | some date => .success (getByDateValid cfg dateStr date)

/-- Inclusive containment test `current >= start && current <= end` of
`isTimeInRange`. -/
def isTimeInRange (current start stop : HM) : Bool :=
  hmLe start current && hmLe current stop

/-- Two-character zero padding `padStart(2, '0')` of a decimal number. -/
def pad2 (n : Nat) : String :=
  if n < 10 then "0" ++ toString n else toString n

/-- The `formatSeconds` helper: `HH:MM:SS` rendering of a second count. -/
def formatSeconds (seconds : Nat) : String :=
  let h := seconds / 3600
  let m := (seconds % 3600) / 60
  let s := seconds % 60
  pad2 h ++ ":" ++ pad2 m ++ ":" ++ pad2 s

/-- A reading of the ambient clock: the date string `formatDateToISO(now)`
would produce, plus the seconds elapsed since local midnight (whole-second
granularity). -/
structure Instant where
  dateStr : String
  sec : Nat
deriving DecidableEq, Repr

/-- The `HH:MM` view of a clock reading, `formatTimeForComparison(now)`. -/
def hmOfSec (s : Nat) : HM :=
  ⟨s / 3600, (s % 3600) / 60⟩

/-- Seconds since midnight of a `HH:MM` time, the value of
`parseTimeToDate(timeStr)` relative to midnight (seconds zeroed). -/
def secOfHM (t : HM) : Nat :=
  t.h * 3600 + t.m * 60

/-- The `data` object of the `getCurrent` response. Keys the source omits on
the no-school early return (`dayCycle`, `remainingSeconds`,
`remainingFormatted`) are `none` there. -/
structure CurrentData where
  date : String
  currentTime : HM
  dayCycle : Option Nat
  status : String
  currentPeriod : Option ScheduleItem
  nextPeriod : Option ScheduleItem
  remainingSeconds : Option Int
  remainingFormatted : Option String
  message : Option String
deriving DecidableEq, Repr

/-- The `getCurrent` operation of `api.js`: resolve today via `getByDate`;
on failure or a non-school day return the no-school record; otherwise scan
the built schedule for the first slot containing the current `HH:MM`
(inclusive on both ends) and the first slot starting strictly later, and
compute the clamped whole-second remainder
`Math.max(0, Math.floor((endTime - now) / 1000))`, formatting it only when
the count is truthy (nonzero). -/
def getCurrent (cfg : Config) (now : Instant) : CurrentData :=
  let currentTime := hmOfSec now.sec
  match getByDate cfg now.dateStr with
  | .error _ =>
    { date := now.dateStr, currentTime := currentTime, dayCycle := none,
      status := "no-school", currentPeriod := none, nextPeriod := none,
      remainingSeconds := none, remainingFormatted := none,
      message := some (jsOrDefault none "今日沒有課程") }
  | .success data =>
    if data.isSchoolDay then
      let schedule := data.schedule
      let currentPeriod := schedule.find? fun item =>
        isTimeInRange currentTime item.start item.stop
      let status := match currentPeriod with
        | some item => item.type
        | none => "free"
      let nextPeriod := schedule.find? fun item => hmLt currentTime item.start
      let remainingSeconds : Option Int := currentPeriod.map fun item =>
        max 0 ((secOfHM item.stop : Int) - (now.sec : Int))
      { date := now.dateStr, currentTime := currentTime, dayCycle := data.dayCycle,
        status := status, currentPeriod := currentPeriod, nextPeriod := nextPeriod,
        remainingSeconds := remainingSeconds,
        remainingFormatted := match remainingSeconds with
          | some n => if n ≠ 0 then some (formatSeconds n.toNat) else none
          | none => none,
        message := none }
    else
      { date := now.dateStr, currentTime := currentTime, dayCycle := none,
        status := "no-school", currentPeriod := none, nextPeriod := none,
        remainingSeconds := none, remainingFormatted := none,
        message := some (jsOrDefault data.message "今日沒有課程") }

/-- The `isNonSchoolDay` helper of the application script: weekend, or
neither a day-rotation entry nor a special-date entry (an invalid date is
not a non-school day there). -/
def isNonSchoolDay (cfg : Config) (dateStr : String) : Bool :=
  match parseDateISO dateStr with
  | none => false
  | some d =>
    if dayOfWeekOf d == 0 || dayOfWeekOf d == 6 then true
    else !truthyNat (cfg.dayRotation dateStr) && !truthyStr (cfg.specialDates dateStr)

/-- The `getTimetableTypeForDate` helper of the application script:
special-date override first, then non-school days, then the Friday rule,
else `normal`. -/
def getTimetableTypeForDate (cfg : Config) (dateStr : String) : String :=
  if truthyStr (cfg.specialDates dateStr) then
    "special" ++ (cfg.specialDates dateStr).getD ""
  else if isNonSchoolDay cfg dateStr then "none"
  else
    match parseDateISO dateStr with
    | some d => if dayOfWeekOf d == 5 then "specialB" else "normal"
    | none => "normal"

/-! Order facts about the lexicographic `HH:MM` comparison. -/

theorem hmLe_iff {a b : HM} : hmLe a b = true ↔ a.h < b.h ∨ (a.h = b.h ∧ a.m ≤ b.m) := by
  simp [hmLe, Bool.or_eq_true, Bool.and_eq_true, beq_iff_eq, decide_eq_true_eq]

theorem hmLt_iff {a b : HM} : hmLt a b = true ↔ a.h < b.h ∨ (a.h = b.h ∧ a.m < b.m) := by
  simp [hmLt, Bool.or_eq_true, Bool.and_eq_true, beq_iff_eq, decide_eq_true_eq]

theorem hmLe_refl (a : HM) : hmLe a a = true :=
  hmLe_iff.mpr (Or.inr ⟨rfl, Nat.le_refl _⟩)

theorem hmLe_trans {a b c : HM} (hab : hmLe a b = true) (hbc : hmLe b c = true) :
    hmLe a c = true := by
  rcases hmLe_iff.mp hab with h1 | ⟨h1, h1m⟩ <;> rcases hmLe_iff.mp hbc with h2 | ⟨h2, h2m⟩ <;>
    exact hmLe_iff.mpr (by omega)

theorem hmLe_of_hmLt {a b : HM} (h : hmLt a b = true) : hmLe a b = true := by
  rcases hmLt_iff.mp h with h | ⟨h, hm⟩ <;> exact hmLe_iff.mpr (by omega)

theorem hmLe_of_not_hmLt {a b : HM} (h : ¬ hmLt a b = true) : hmLe b a = true := by
  rw [hmLt_iff] at h
  rcases Nat.lt_trichotomy a.h b.h with hlt | heq | hgt
  · exact absurd (Or.inl hlt) h
  · exact hmLe_iff.mpr (Or.inr ⟨heq.symm, by omega⟩)
  · exact hmLe_iff.mpr (Or.inl hgt)

theorem ne_of_hmLt {a b : HM} (h : hmLt a b = true) : a ≠ b := by
  rcases hmLt_iff.mp h with h | ⟨h, hm⟩ <;> (intro hab; cases hab; omega)

/-! Properties of the stable insertion sort embedding the source's
`Array.prototype.sort` call. -/

theorem insertByStart_perm (x : ScheduleItem) (l : List ScheduleItem) :
    (insertByStart x l).Perm (x :: l) := by
  induction l with
  | nil => exact List.Perm.refl _
  | cons y ys ih =>
    simp only [insertByStart]
    split
    · exact (ih.cons y).trans (List.Perm.swap x y ys)
    · exact List.Perm.refl _

theorem insertByStart_pairwise (x : ScheduleItem) (l : List ScheduleItem)
    (hl : List.Pairwise (fun a b => hmLe a.start b.start = true) l) :
    List.Pairwise (fun a b => hmLe a.start b.start = true) (insertByStart x l) := by
  induction l with
  | nil => simp [insertByStart]
  | cons y ys ih =>
    rcases List.pairwise_cons.mp hl with ⟨hy, hys⟩
    simp only [insertByStart]
    split
    case isTrue hlt =>
      refine List.pairwise_cons.mpr ⟨?_, ih hys⟩
      intro z hz
      rcases List.mem_cons.mp ((insertByStart_perm x ys).mem_iff.mp hz) with rfl | hz
      · exact hmLe_of_hmLt hlt
      · exact hy z hz
    case isFalse hnlt =>
      refine List.pairwise_cons.mpr ⟨?_, hl⟩
      intro z hz
      rcases List.mem_cons.mp hz with rfl | hz
      · exact hmLe_of_not_hmLt hnlt
      · exact hmLe_trans (hmLe_of_not_hmLt hnlt) (hy z hz)

theorem sortByStart_perm (l : List ScheduleItem) : (sortByStart l).Perm l := by
  induction l with
  | nil => exact List.Perm.refl _
  | cons x xs ih => exact (insertByStart_perm x (sortByStart xs)).trans (ih.cons x)

theorem sortByStart_pairwise (l : List ScheduleItem) :
    List.Pairwise (fun a b => hmLe a.start b.start = true) (sortByStart l) := by
  induction l with
  | nil => simp [sortByStart]
  | cons x xs ih => exact insertByStart_pairwise x (sortByStart xs) ih

theorem insertByStart_filter_eq (x : ScheduleItem) (l : List ScheduleItem) (t : HM)
    (hx : x.start = t) :
    (insertByStart x l).filter (fun z => decide (z.start = t)) =
      x :: l.filter (fun z => decide (z.start = t)) := by
  induction l with
  | nil => simp [insertByStart, List.filter, hx]
  | cons y ys ih =>
    simp only [insertByStart]
    split
    case isTrue hlt =>
      have hyt : y.start ≠ t := by
        intro h
        exact ne_of_hmLt hlt (h.trans hx.symm)
      simp [List.filter_cons, hyt, ih]
    case isFalse hnlt =>
      simp [List.filter_cons, hx]

theorem insertByStart_filter_ne (x : ScheduleItem) (l : List ScheduleItem) (t : HM)
    (hx : x.start ≠ t) :
    (insertByStart x l).filter (fun z => decide (z.start = t)) =
      l.filter (fun z => decide (z.start = t)) := by
  induction l with
  | nil => simp [insertByStart, List.filter, hx]
  | cons y ys ih =>
    simp only [insertByStart]
    split
    case isTrue hlt =>
      by_cases hyt : y.start = t <;> simp [List.filter_cons, hyt, ih]
    case isFalse hnlt =>
      simp [List.filter_cons, hx]

theorem sortByStart_filter (l : List ScheduleItem) (t : HM) :
    (sortByStart l).filter (fun z => decide (z.start = t)) =
      l.filter (fun z => decide (z.start = t)) := by
  induction l with
  | nil => rfl
  | cons x xs ih =>
    by_cases hx : x.start = t
    · rw [sortByStart, insertByStart_filter_eq x (sortByStart xs) t hx, ih]
      simp [List.filter_cons, hx]
    · rw [sortByStart, insertByStart_filter_ne x (sortByStart xs) t hx, ih]
      simp [List.filter_cons, hx]

/-! Projection lemmas for the embedded operations, shared by the claim
theorems below. -/

theorem getByDateValid_timetableType (cfg : Config) (dateStr : String) (d : Ymd) :
    (getByDateValid cfg dateStr d).timetableType =
      resolveTimetableType cfg dateStr (dayOfWeekOf d) := by
  simp only [getByDateValid]
  split <;> rfl

theorem getCurrent_school_currentPeriod (cfg : Config) (now : Instant) (data : DayData)
    (hsucc : getByDate cfg now.dateStr = Response.success data)
    (hschool : data.isSchoolDay = true) :
    (getCurrent cfg now).currentPeriod =
      data.schedule.find? fun item =>
        isTimeInRange (hmOfSec now.sec) item.start item.stop := by
  simp only [getCurrent, hsucc, hschool, if_true]

theorem getCurrent_school_remainingSeconds (cfg : Config) (now : Instant) (data : DayData)
    (hsucc : getByDate cfg now.dateStr = Response.success data)
    (hschool : data.isSchoolDay = true) :
    (getCurrent cfg now).remainingSeconds =
      (data.schedule.find? fun item =>
        isTimeInRange (hmOfSec now.sec) item.start item.stop).map fun item =>
          max 0 ((secOfHM item.stop : Int) - (now.sec : Int)) := by
  simp only [getCurrent, hsucc, hschool, if_true]

theorem getCurrent_school_status (cfg : Config) (now : Instant) (data : DayData)
    (hsucc : getByDate cfg now.dateStr = Response.success data)
    (hschool : data.isSchoolDay = true) :
    (getCurrent cfg now).status =
      match data.schedule.find? fun item =>
          isTimeInRange (hmOfSec now.sec) item.start item.stop with
      | some item => item.type
      | none => "free" := by
  simp only [getCurrent, hsucc, hschool, if_true]

theorem getCurrent_formatted_eq (cfg : Config) (now : Instant) :
    (getCurrent cfg now).remainingFormatted =
      match (getCurrent cfg now).remainingSeconds with
      | some n => if n ≠ 0 then some (formatSeconds n.toNat) else none
      | none => none := by
  cases hgb : getByDate cfg now.dateStr with
  | error m => simp only [getCurrent, hgb]
  | success data =>
    cases hs : data.isSchoolDay with
    | false => simp only [getCurrent, hgb, hs, Bool.false_eq_true, if_false]
    | true => simp only [getCurrent, hgb, hs, if_true]

theorem getCurrent_notSchool_fields (cfg : Config) (now : Instant)
    (h : ∀ data, getByDate cfg now.dateStr = Response.success data →
      data.isSchoolDay = false) :
    (getCurrent cfg now).currentPeriod = none ∧
      (getCurrent cfg now).remainingSeconds = none ∧
      (getCurrent cfg now).status = "no-school" := by
  cases hgb : getByDate cfg now.dateStr with
  | error m => refine ⟨?_, ?_, ?_⟩ <;> simp only [getCurrent, hgb]
  | success data =>
    have hns := h data hgb
    refine ⟨?_, ?_, ?_⟩ <;>
      simp only [getCurrent, hgb, hns, Bool.false_eq_true, if_false]

/-! Concrete configurations and instants used to instantiate the claim
theorems on explicit inputs. -/

/-- Configuration with all four tables empty. -/
def cfgEmpty : Config :=
  { timetableData := fun _ => none,
    subjectSchedule := fun _ _ => none,
    dayRotation := fun _ => none,
    specialDates := fun _ => none }

/-- Configuration with a special-date override tag `A` and a day-cycle entry
on `2025-12-20`, a Saturday. -/
def cfgOverride : Config :=
  { timetableData := fun _ => none,
    subjectSchedule := fun _ _ => none,
    dayRotation := fun s => if s = "2025-12-20" then some 3 else none,
    specialDates := fun s => if s = "2025-12-20" then some "A" else none }

/-- Configuration with a day-cycle entry on `2025-12-19`, a Friday, and no
special dates. -/
def cfgFriday : Config :=
  { timetableData := fun _ => none,
    subjectSchedule := fun _ _ => none,
    dayRotation := fun s => if s = "2025-12-19" then some 2 else none,
    specialDates := fun _ => none }

/-- Configuration with a day-cycle entry on `2025-12-20`, a Saturday, and no
special dates. -/
def cfgWeekendCycle : Config :=
  { timetableData := fun _ => none,
    subjectSchedule := fun _ _ => none,
    dayRotation := fun s => if s = "2025-12-20" then some 5 else none,
    specialDates := fun _ => none }

/-- Two-period timetable with adjacent periods 08:40-09:20 and 09:20-10:00. -/
def ttW : Timetable :=
  { preSchoolAssembly := none,
    periods := [⟨⟨8, 40⟩, ⟨9, 20⟩⟩, ⟨⟨9, 20⟩, ⟨10, 0⟩⟩],
    breaks := [] }

/-- Configuration serving `ttW` as the normal timetable, with a day-cycle
entry on `2025-12-15`, a Monday. -/
def cfgSchool : Config :=
  { timetableData := fun s => if s = "normal" then some ttW else none,
    subjectSchedule := fun _ _ => none,
    dayRotation := fun s => if s = "2025-12-15" then some 1 else none,
    specialDates := fun _ => none }

/-- First period slot of `ttW` as built by `buildSchedule`. -/
def item1W : ScheduleItem :=
  { type := "period", name := "第1節", displayName := "P1", periodNumber := some 1,
    start := ⟨8, 40⟩, stop := ⟨9, 20⟩, subject := "課程", duration := 40 }

/-- Second period slot of `ttW` as built by `buildSchedule`. -/
def item2W : ScheduleItem :=
  { type := "period", name := "第2節", displayName := "P2", periodNumber := some 2,
    start := ⟨9, 20⟩, stop := ⟨10, 0⟩, subject := "課程", duration := 40 }

/-- The day record `getByDate cfgSchool "2025-12-15"` produces. -/
def dataW : DayData :=
  { date := "2025-12-15", dayOfWeek := "星期一", dayOfWeekNumber := 1,
    dayCycle := some 1, timetableType := "normal", timetableTypeName := "正常時間表",
    isSchoolDay := true, isWeekend := false, schedule := [item1W, item2W],
    periods := some 2, breaks := some 0, preSchoolAssembly := none, message := none }

/-- Clock reading 09:18:00 on the Monday served by `cfgSchool`. -/
def nowA : Instant := ⟨"2025-12-15", 33480⟩

/-- Clock reading 09:20:00, exactly at the first period's end and the second
period's start. -/
def nowB : Instant := ⟨"2025-12-15", 33600⟩

/-! Claim C1: a special-date override wins over every other
variant-selection rule. -/

/-- C1: for every date string with a (truthy) special-date override entry,
both `getByDate` and `getTimetableTypeForDate` resolve the timetable type
to `special<Tag>`, whatever the weekday and day-cycle tables say: the
override check is evaluated first and wins. The parse hypothesis is only
needed for `getByDate`, whose invalid-date check precedes everything. -/
theorem override_wins (cfg : Config) (dateStr : String) (tag : String) (d : Ymd)
    (hp : parseDateISO dateStr = some d)
    (hov : cfg.specialDates dateStr = some tag) (htag : tag ≠ "") :
    (getByDate cfg dateStr).timetableTypeOf = some ("special" ++ tag) ∧
      getTimetableTypeForDate cfg dateStr = "special" ++ tag := by
  constructor
  · simp only [getByDate, hp, Response.timetableTypeOf, Option.some.injEq,
      getByDateValid_timetableType]
    simp [resolveTimetableType, jsOrNullStr, truthyStr, hov, htag]
  · simp [getTimetableTypeForDate, truthyStr, hov, htag]

/-- C1 witness: on Saturday `2025-12-20`, which also has a day-cycle entry,
the override tag `A` still resolves to `specialA` in both implementations. -/
theorem override_wins_witness :
    (getByDate cfgOverride "2025-12-20").timetableTypeOf = some "specialA" ∧
      getTimetableTypeForDate cfgOverride "2025-12-20" = "specialA" := by
  have h := override_wins cfgOverride "2025-12-20" "A" ⟨2025, 12, 20⟩
    (by decide) (by decide) (by decide)
  exact ⟨h.1.trans (by decide), h.2.trans (by decide)⟩

/-! Claim C2: the Friday rule. The claim as stated (no day-cycle
precondition) is false: both implementations send a Friday without a
day-cycle entry to `none` before the Friday check runs. -/

/-- C2 counterexample: `2025-12-19` is a Friday with no override and no
day-cycle entry, and both resolutions return `none`, not `specialB`. -/
theorem friday_requires_cycle_cex :
    dayOfWeekOf ⟨2025, 12, 19⟩ = 5 ∧
      parseDateISO "2025-12-19" = some ⟨2025, 12, 19⟩ ∧
      cfgEmpty.specialDates "2025-12-19" = none ∧
      (getByDate cfgEmpty "2025-12-19").timetableTypeOf = some "none" ∧
      (getByDate cfgEmpty "2025-12-19").timetableTypeOf ≠ some "specialB" ∧
      getTimetableTypeForDate cfgEmpty "2025-12-19" = "none" := by
  refine ⟨by decide, by decide, rfl, by decide, by decide, by decide⟩

/-- C2 amended: for every non-overridden Friday that has a (truthy)
day-cycle entry, both resolutions return the designated Friday variant
`specialB`. -/
theorem friday_variant (cfg : Config) (dateStr : String) (d : Ymd) (c : Nat)
    (hp : parseDateISO dateStr = some d) (hfri : dayOfWeekOf d = 5)
    (hov : cfg.specialDates dateStr = none)
    (hcyc : cfg.dayRotation dateStr = some c) (hc : c ≠ 0) :
    (getByDate cfg dateStr).timetableTypeOf = some "specialB" ∧
      getTimetableTypeForDate cfg dateStr = "specialB" := by
  constructor
  · simp only [getByDate, hp, Response.timetableTypeOf, Option.some.injEq,
      getByDateValid_timetableType]
    simp [resolveTimetableType, jsOrNullStr, jsOrNullNat, truthyStr, truthyNat,
      hov, hcyc, hfri, hc]
  · simp [getTimetableTypeForDate, isNonSchoolDay, truthyStr, truthyNat,
      hov, hcyc, hp, hfri, hc]

/-- C2 amended witness: Friday `2025-12-19` with day-cycle entry 2 resolves
to `specialB` in both implementations. -/
theorem friday_variant_witness :
    (getByDate cfgFriday "2025-12-19").timetableTypeOf = some "specialB" ∧
      getTimetableTypeForDate cfgFriday "2025-12-19" = "specialB" :=
  friday_variant cfgFriday "2025-12-19" ⟨2025, 12, 19⟩ 2
    (by decide) (by decide) rfl (by decide) (by decide)

/-! Claim C3: weekends resolve to `none`. The claim as stated (no exception
for override dates) is false: the override check precedes the weekend
check in both implementations. -/

/-- C3 counterexample: `2025-12-20` is a Saturday carrying the override tag
`A`, and both resolutions return `specialA`, not `none`. -/
theorem weekend_override_cex :
    dayOfWeekOf ⟨2025, 12, 20⟩ = 6 ∧
      (cfgOverride.specialDates "2025-12-20").isSome = true ∧
      (getByDate cfgOverride "2025-12-20").timetableTypeOf = some "specialA" ∧
      (getByDate cfgOverride "2025-12-20").timetableTypeOf ≠ some "none" ∧
      getTimetableTypeForDate cfgOverride "2025-12-20" = "specialA" ∧
      getTimetableTypeForDate cfgOverride "2025-12-20" ≠ "none" := by
  refine ⟨by decide, rfl, by decide, by decide, by decide, by decide⟩

/-- C3 amended: for every weekend date with no special-date override entry,
both resolutions return `none`, regardless of any day-cycle entry. -/
theorem weekend_none (cfg : Config) (dateStr : String) (d : Ymd)
    (hp : parseDateISO dateStr = some d)
    (hw : dayOfWeekOf d = 0 ∨ dayOfWeekOf d = 6)
    (hov : cfg.specialDates dateStr = none) :
    (getByDate cfg dateStr).timetableTypeOf = some "none" ∧
      getTimetableTypeForDate cfg dateStr = "none" := by
  constructor
  · simp only [getByDate, hp, Response.timetableTypeOf, Option.some.injEq,
      getByDateValid_timetableType]
    rcases hw with hw | hw <;>
      simp [resolveTimetableType, jsOrNullStr, truthyStr, hov, hw]
  · rcases hw with hw | hw <;>
      simp [getTimetableTypeForDate, isNonSchoolDay, truthyStr, hov, hp, hw]

/-- C3 amended witness: Saturday `2025-12-20` with a day-cycle entry but no
override resolves to `none` in both implementations. -/
theorem weekend_none_witness :
    (getByDate cfgWeekendCycle "2025-12-20").timetableTypeOf = some "none" ∧
      getTimetableTypeForDate cfgWeekendCycle "2025-12-20" = "none" :=
  weekend_none cfgWeekendCycle "2025-12-20" ⟨2025, 12, 20⟩
    (by decide) (Or.inr (by decide)) rfl

/-! Claim C4: inclusive slot containment and the boundary rule in
`getCurrent`. -/

/-- C4: on a school day, `getCurrent` selects as current slot the first slot
of the (start-ascending) schedule whose inclusive `start <= now <= end`
range contains the current `HH:MM`; in particular, when `now` sits exactly
at one slot's end, which is also the next slot's start, the earlier
(ending) slot is selected and `remainingSeconds` is `0`. -/
theorem current_first_match_inclusive (cfg : Config) (now : Instant) (data : DayData)
    (hsucc : getByDate cfg now.dateStr = Response.success data)
    (hschool : data.isSchoolDay = true) :
    (∀ it : ScheduleItem, (getCurrent cfg now).currentPeriod = some it →
        isTimeInRange (hmOfSec now.sec) it.start it.stop = true ∧
        ∃ pre post, data.schedule = pre ++ it :: post ∧
          ∀ x ∈ pre, isTimeInRange (hmOfSec now.sec) x.start x.stop = false) ∧
    (∀ pre a b post, data.schedule = pre ++ a :: b :: post →
        (∀ x ∈ pre, isTimeInRange (hmOfSec now.sec) x.start x.stop = false) →
        hmLe a.start (hmOfSec now.sec) = true →
        a.stop = hmOfSec now.sec → b.start = hmOfSec now.sec →
        now.sec = secOfHM a.stop →
        (getCurrent cfg now).currentPeriod = some a ∧
          (getCurrent cfg now).remainingSeconds = some 0) := by
  constructor
  · intro it hit
    rw [getCurrent_school_currentPeriod cfg now data hsucc hschool] at hit
    obtain ⟨hp, pre, post, hl, hall⟩ := List.find?_eq_some.mp hit
    exact ⟨hp, pre, post, hl, fun x hx => by simpa using hall x hx⟩
  · intro pre a b post hdec hpre hstart hstopa hstartb hsec
    have hpa : isTimeInRange (hmOfSec now.sec) a.start a.stop = true := by
      simp [isTimeInRange, hstopa, hstart, hmLe_refl]
    have hfind : (data.schedule.find? fun item =>
        isTimeInRange (hmOfSec now.sec) item.start item.stop) = some a := by
      have h1 : (pre.find? fun item =>
          isTimeInRange (hmOfSec now.sec) item.start item.stop) = none :=
        List.find?_eq_none.mpr fun x hx => by simp [hpre x hx]
      rw [hdec, List.find?_append, h1, Option.none_or]
      exact List.find?_cons_of_pos _ hpa
    constructor
    · rw [getCurrent_school_currentPeriod cfg now data hsucc hschool, hfind]
    · rw [getCurrent_school_remainingSeconds cfg now data hsucc hschool, hfind,
        Option.map_some', hsec]
      simp

/-- C4 witness: with the two adjacent periods of `ttW` and the clock at
09:20:00 (the first period's end, the second period's start), the current
slot is the first period and `remainingSeconds` is `0`. -/
theorem current_first_match_inclusive_witness :
    (getCurrent cfgSchool nowB).currentPeriod = some item1W ∧
      (getCurrent cfgSchool nowB).remainingSeconds = some 0 :=
  (current_first_match_inclusive cfgSchool nowB dataW (by decide) (by decide)).2
    [] item1W item2W [] (by decide) (by simp) (by decide)
    (by decide) (by decide) (by decide)

/-! Claim C5: shape and monotonicity of `remainingSeconds`. -/

/-- C5: `remainingSeconds` is present exactly when a current slot is active
(absent on the free and no-school paths), equals the zero-clamped
whole-second distance from `now` to the slot's end, is never negative,
strictly decreases as `now` advances within the active slot, and reaches
`0` at the slot's end. -/
theorem remaining_seconds_spec (cfg : Config) (now now2 : Instant) (it : ScheduleItem)
    (hcur : (getCurrent cfg now).currentPeriod = some it) :
    (getCurrent cfg now).remainingSeconds =
        some (max 0 ((secOfHM it.stop : Int) - (now.sec : Int))) ∧
    (∀ n, (getCurrent cfg now).remainingSeconds = some n → 0 ≤ n) ∧
    ((getCurrent cfg now2).currentPeriod = some it → now.sec < now2.sec →
        now2.sec ≤ secOfHM it.stop →
        ∀ n m, (getCurrent cfg now).remainingSeconds = some n →
          (getCurrent cfg now2).remainingSeconds = some m → m < n) ∧
    (now.sec = secOfHM it.stop → (getCurrent cfg now).remainingSeconds = some 0) ∧
    (∀ now3 : Instant,
        (getCurrent cfg now3).remainingSeconds.isSome =
          (getCurrent cfg now3).currentPeriod.isSome) ∧
    (∀ now3 : Instant, (getCurrent cfg now3).remainingSeconds = none →
        (getCurrent cfg now3).status = "free" ∨
          (getCurrent cfg now3).status = "no-school") := by
  have hformula : ∀ (nw : Instant) (jt : ScheduleItem),
      (getCurrent cfg nw).currentPeriod = some jt →
      (getCurrent cfg nw).remainingSeconds =
        some (max 0 ((secOfHM jt.stop : Int) - (nw.sec : Int))) := by
    intro nw jt hj
    cases hgb : getByDate cfg nw.dateStr with
    | error m => simp [getCurrent, hgb] at hj
    | success data =>
      cases hs : data.isSchoolDay with
      | false => simp [getCurrent, hgb, hs] at hj
      | true =>
        rw [getCurrent_school_currentPeriod cfg nw data hgb hs] at hj
        rw [getCurrent_school_remainingSeconds cfg nw data hgb hs, hj,
          Option.map_some']
  refine ⟨hformula now it hcur, ?_, ?_, ?_, ?_, ?_⟩
  · intro n hn
    rw [hformula now it hcur] at hn
    injection hn with hn
    subst hn
    exact le_max_left _ _
  · intro hcur2 hlt hle n m hn hm
    rw [hformula now it hcur] at hn
    rw [hformula now2 it hcur2] at hm
    injection hn with hn
    injection hm with hm
    have h2 : (0 : Int) ≤ (secOfHM it.stop : Int) - (now2.sec : Int) := by
      have := hle
      omega
    have h1 : (0 : Int) ≤ (secOfHM it.stop : Int) - (now.sec : Int) := by omega
    rw [max_eq_right h2] at hm
    rw [max_eq_right h1] at hn
    omega
  · intro hend
    rw [hformula now it hcur, hend]
    simp
  · intro now3
    cases hgb : getByDate cfg now3.dateStr with
    | error m => simp [getCurrent, hgb]
    | success data =>
      cases hs : data.isSchoolDay with
      | false => simp [getCurrent, hgb, hs]
      | true =>
        rw [getCurrent_school_remainingSeconds cfg now3 data hgb hs,
          getCurrent_school_currentPeriod cfg now3 data hgb hs,
          Option.isSome_map']
  · intro now3 hnone
    cases hgb : getByDate cfg now3.dateStr with
    | error m =>
      right
      simp [getCurrent, hgb]
    | success data =>
      cases hs : data.isSchoolDay with
      | false =>
        right
        simp [getCurrent, hgb, hs]
      | true =>
        left
        rw [getCurrent_school_remainingSeconds cfg now3 data hgb hs] at hnone
        have hfind := Option.map_eq_none'.mp hnone
        rw [getCurrent_school_status cfg now3 data hgb hs, hfind]

/-- C5 witness: in the first period of `ttW`, the remainder is 120 seconds
at 09:18:00 and 0 at the 09:20 end. -/
theorem remaining_seconds_spec_witness :
    (getCurrent cfgSchool nowA).remainingSeconds = some 120 ∧
      (getCurrent cfgSchool nowB).remainingSeconds = some 0 := by
  constructor
  · exact ((remaining_seconds_spec cfgSchool nowA nowB item1W (by decide)).1).trans
      (by decide)
  · exact (remaining_seconds_spec cfgSchool nowB nowB item1W (by decide)).2.2.2.1
      (by decide)

/-! Claim C6: `buildSchedule` emission order, sortedness, and stability. -/

/-- C6: `buildSchedule` emits the assembly slot when present, then one slot
per period numbered `1..N` in definition order, then one slot per break,
and returns that concatenation stable-sorted by start time ascending: the
output is start-sorted, is a permutation of the emitted catalog, and slots
with equal start keep the catalog order (the filter at every start time is
unchanged). -/
theorem build_schedule_sorted_stable (ss : Nat → Nat → Option String) (tt : Timetable)
    (dc : Option Nat) :
    buildSchedule ss tt dc =
        sortByStart (assemblyItems tt ++ periodItems ss tt dc ++ breakItems tt) ∧
    List.Pairwise (fun a b => hmLe a.start b.start = true) (buildSchedule ss tt dc) ∧
    (buildSchedule ss tt dc).Perm
        (assemblyItems tt ++ periodItems ss tt dc ++ breakItems tt) ∧
    (∀ t : HM, (buildSchedule ss tt dc).filter (fun z => decide (z.start = t)) =
        (assemblyItems tt ++ periodItems ss tt dc ++ breakItems tt).filter
          (fun z => decide (z.start = t))) ∧
    (periodItems ss tt dc).map (fun z => z.periodNumber) =
        (List.range tt.periods.length).map (fun i => some (i + 1)) ∧
    (periodItems ss tt dc).length = tt.periods.length ∧
    (breakItems tt).length = tt.breaks.length ∧
    (assemblyItems tt).length = (if tt.preSchoolAssembly.isSome then 1 else 0) := by
  refine ⟨rfl, sortByStart_pairwise _, sortByStart_perm _,
    fun t => sortByStart_filter _ t, ?_, ?_, ?_, ?_⟩
  · rw [periodItems, List.map_map, ← List.enum_map_fst tt.periods, List.map_map]
    rfl
  · simp [periodItems]
  · simp [breakItems]
  · cases h : tt.preSchoolAssembly <;> simp [assemblyItems, h]

/-! Claim C7: `buildSchedule` is a deterministic pure transform. -/

/-- C7: `buildSchedule` depends only on its inputs and the subject table:
two calls with identical definition and day cycle against extensionally
equal subject tables produce structurally identical output sequences. -/
theorem build_schedule_deterministic (ss1 ss2 : Nat → Nat → Option String)
    (tt1 tt2 : Timetable) (dc1 dc2 : Option Nat)
    (hss : ∀ c p, ss1 c p = ss2 c p) (htt : tt1 = tt2) (hdc : dc1 = dc2) :
    buildSchedule ss1 tt1 dc1 = buildSchedule ss2 tt2 dc2 := by
  subst htt
  subst hdc
  have h : ss1 = ss2 := funext fun c => funext fun p => hss c p
  rw [h]

/-- C7 witness: two calls on the identical concrete input agree. -/
theorem build_schedule_deterministic_witness :
    buildSchedule cfgSchool.subjectSchedule ttW (some 1) =
      buildSchedule cfgSchool.subjectSchedule ttW (some 1) :=
  build_schedule_deterministic cfgSchool.subjectSchedule cfgSchool.subjectSchedule
    ttW ttW (some 1) (some 1) (fun _ _ => rfl) rfl rfl

/-! Claim C8: malformed dates short-circuit to the error envelope. -/

/-- C8: every input string that does not parse as a valid `YYYY-MM-DD` date
makes `getByDate` return the `success:false` envelope carrying exactly the
message `Invalid date format. Use YYYY-MM-DD`, with no day-record fields
(the error constructor carries only the message; no schedule computation
occurs). -/
theorem invalid_date_error (cfg : Config) (s : String)
    (hp : parseDateISO s = none) :
    getByDate cfg s = Response.error "Invalid date format. Use YYYY-MM-DD" := by
  simp [getByDate, hp]

/-- C8 witness: `2025-13-05` has no thirteenth month and yields the error
envelope. -/
theorem invalid_date_error_witness :
    getByDate cfgEmpty "2025-13-05" =
      Response.error "Invalid date format. Use YYYY-MM-DD" :=
  invalid_date_error cfgEmpty "2025-13-05" (by decide)

/-! Claim C9: the non-school-day record. -/

/-- C9: for every valid date whose resolved variant is `none`, `getByDate`
returns a success record with `isSchoolDay := false`, an empty schedule,
the period and break count fields absent, and the localized message:
the weekend message on Saturdays and Sundays, otherwise the generic
non-school-day message. -/
theorem non_school_day_response (cfg : Config) (dateStr : String) (d : Ymd)
    (hp : parseDateISO dateStr = some d)
    (htype : (getByDate cfg dateStr).timetableTypeOf = some "none") :
    ∃ data, getByDate cfg dateStr = Response.success data ∧
      data.isSchoolDay = false ∧ data.schedule = [] ∧
      data.periods = none ∧ data.breaks = none ∧
      data.message = some (if dayOfWeekOf d == 0 || dayOfWeekOf d == 6
        then "週末休息" else "非上課日") := by
  have hres : resolveTimetableType cfg dateStr (dayOfWeekOf d) = "none" := by
    simpa [getByDate, hp, Response.timetableTypeOf,
      getByDateValid_timetableType] using htype
  refine ⟨getByDateValid cfg dateStr d, by simp [getByDate, hp], ?_⟩
  simp only [getByDateValid, hres]
  cases htt : cfg.timetableData "none" <;>
    exact ⟨rfl, rfl, rfl, rfl, rfl⟩

/-- C9 witness: Saturday `2025-12-20` with empty tables resolves to `none`
and yields the empty-schedule weekend record. -/
theorem non_school_day_response_witness :
    ∃ data, getByDate cfgEmpty "2025-12-20" = Response.success data ∧
      data.isSchoolDay = false ∧ data.schedule = [] ∧
      data.periods = none ∧ data.breaks = none ∧
      data.message = some "週末休息" := by
  obtain ⟨data, h1, h2, h3, h4, h5, h6⟩ :=
    non_school_day_response cfgEmpty "2025-12-20" ⟨2025, 12, 20⟩ (by decide) (by decide)
  exact ⟨data, h1, h2, h3, h4, h5, h6.trans (by decide)⟩

/-! Claim C10: the falsy-zero guard on `remainingFormatted`. -/

/-- C10: `remainingFormatted` is the `HH:MM:SS` rendering of
`remainingSeconds` only when that count is strictly positive; at a count
of exactly `0` (a current slot still active but at or past its end within
the minute) the truthiness guard `remainingSeconds ? ... : null` treats
`0` as falsy and yields `null`, as it does when no slot is active. -/
theorem remaining_formatted_zero_guard (cfg : Config) (now : Instant) :
    (∀ n : Int, (getCurrent cfg now).remainingSeconds = some n → 0 < n →
        (getCurrent cfg now).remainingFormatted = some (formatSeconds n.toNat)) ∧
    ((getCurrent cfg now).remainingSeconds = some 0 →
        (getCurrent cfg now).remainingFormatted = none) ∧
    ((getCurrent cfg now).remainingSeconds = none →
        (getCurrent cfg now).remainingFormatted = none) := by
  refine ⟨?_, ?_, ?_⟩
  · intro n hn hpos
    rw [getCurrent_formatted_eq, hn]
    have hne : n ≠ 0 := by omega
    simp [hne]
  · intro h0
    rw [getCurrent_formatted_eq, h0]
    simp
  · intro hnone
    rw [getCurrent_formatted_eq, hnone]

/-- C10 witness: 120 remaining seconds render as `00:02:00`, while at the
boundary the zero count leaves `remainingFormatted` absent even though a
current slot is selected. -/
theorem remaining_formatted_zero_guard_witness :
    (getCurrent cfgSchool nowA).remainingFormatted = some "00:02:00" ∧
      (getCurrent cfgSchool nowB).remainingFormatted = none := by
  constructor
  · exact ((remaining_formatted_zero_guard cfgSchool nowA).1 120
      (by decide) (by decide)).trans (by decide)
  · exact (remaining_formatted_zero_guard cfgSchool nowB).2.1 (by decide)

end Timetable
